import Mathlib

/-!
Verification of the jwt-waf core against its specification.

The development shallowly embeds the TypeScript sources of the repository:

* `src/packages/core/src/store/memory.ts`   (`InMemoryStore`)
* `src/packages/core/src/engine/index.ts`   (`WafEngine`)
* `src/packages/core/src/engine/config-validator.ts` (`validateConfig`)
* the safe JWT decoder (`decodeJwt`) and the rule variants under
  `src/packages/core/src/rules/`.

Conventions of the embedding:

* JavaScript `Date.now()` is modelled by an explicit `now` parameter; every
  store / decoder operation receives the single instant at which it runs
  (the source may call `Date.now()` several times inside one operation; the
  model evaluates them all at the same instant).
* JavaScript numbers are modelled by `Int` (`Nat` for epoch-millisecond
  timestamps, which are non-negative); `NaN` arising from `parseInt` is
  modelled by `Option Int` with `none` standing for `NaN`.
* JavaScript truthiness is modelled field by field: a missing property is
  `none`, the falsy values `0` and `""` are checked explicitly where the
  source branches on truthiness.
* Node platform primitives that are not code of this repository
  (`Buffer.from(..).toString(..)`, `JSON.parse`, `crypto.createHmac`) are
  abstracted as the function parameters collected in `JsPrims`; everything
  downstream of them is translated from the source.
-/

/-! ## The in-memory TTL store (`src/packages/core/src/store/memory.ts`) -/

/-- Entry stored by `InMemoryStore`: the value string and the optional
expiry instant in epoch milliseconds. -/
structure StoredValue where
  value : String
  expiresAt : Option Nat
  deriving DecidableEq

/-- The private `Map<string, StoredValue>` of `InMemoryStore`, modelled as an
insertion-ordered association list with (by construction) unique keys. -/
abbrev StoreState : Type := List (String × StoredValue)

/-- First binding of a key, as JavaScript `Map.prototype.get`. -/
def lookupSV (k : String) : StoreState → Option StoredValue
  | [] => none
  | e :: rest => if e.1 = k then some e.2 else lookupSV k rest

/-- JavaScript `Map.prototype.set`: update in place when the key exists
(keeping insertion order), otherwise append. -/
def assocSet (k : String) (v : StoredValue) : StoreState → StoreState
  | [] => [(k, v)]
  | e :: rest => if e.1 = k then (k, v) :: rest else e :: assocSet k v rest

/-- JavaScript `Map.prototype.delete`. -/
def assocDelete (k : String) : StoreState → StoreState
  | [] => []
  | e :: rest => if e.1 = k then rest else e :: assocDelete k rest

/-- Truthiness of the `expiresAt` field combined with the expiry test of
`InMemoryStore.get`: the source checks `stored.expiresAt && Date.now() >
stored.expiresAt`, so an absent — or zero, hence falsy — `expiresAt` never
expires. -/
def getExpired (now : Nat) (sv : StoredValue) : Bool :=
  match sv.expiresAt with
  | none => false
  | some e => e != 0 && decide (now > e)

/-- `InMemoryStore.get`: `null` when the key is missing or past its
`expiresAt`; an expired entry is lazily deleted. -/
def getOp (now : Nat) (k : String) (st : StoreState) : Option String × StoreState :=
  match lookupSV k st with
  | none => (none, st)
  | some sv =>
    if getExpired now sv then (none, assocDelete k st)
    else (some sv.value, st)

/-- `InMemoryStore.set`: `expiresAt` is `Date.now() + ttlSeconds * 1000` when
`ttlSeconds` is truthy, and absent otherwise — so a `ttlSeconds` of `0` (or a
missing one) stores the entry without expiry. -/
def setOp (now : Nat) (k : String) (v : String) (ttlSeconds : Option Nat)
    (st : StoreState) : StoreState :=
  let ea : Option Nat :=
    match ttlSeconds with
    | some t => if t ≠ 0 then some (now + t * 1000) else none
    | none => none
  assocSet k ⟨v, ea⟩ st

/-- JavaScript `parseInt(s, 10)`: skip whitespace, optional sign, then the
longest digit run; `none` models `NaN`. -/
def jsParseInt (s : String) : Option Int :=
  let cs := s.toList.dropWhile (·.isWhitespace)
  let signAndRest : Int × List Char :=
    match cs with
    | '-' :: t => (-1, t)
    | '+' :: t => (1, t)
    | _ => (1, cs)
  let digs := signAndRest.2.takeWhile (·.isDigit)
  if digs.isEmpty then none
  else some (signAndRest.1 * (digs.foldl (fun a c => a * 10 + (c.toNat - '0'.toNat : Int)) 0))

/-- Addition on JavaScript numbers where `none` is `NaN` (which propagates). -/
def jsAdd : Option Int → Option Int → Option Int
  | some a, some b => some (a + b)
  | _, _ => none

/-- JavaScript `Number.prototype.toString` on the model of numbers. -/
def jsNumToString : Option Int → String
  | some n => toString n
  | none => "NaN"

/-- JavaScript `count >= threshold` where `count` may be `NaN` (always false). -/
def jsGe (a : Option Int) (b : Int) : Bool :=
  match a with
  | some n => decide (b ≤ n)
  | none => false

/-- `InMemoryStore.increment`: read via `get` (with lazy expiry), parse the
current value (`current ? parseInt(current, 10) : 0`, so a missing or empty
value counts as `0`), add `delta`, then re-`set` with
`Math.max(0, Math.floor((expiresAt - Date.now()) / 1000))` seconds of TTL when
the direct map lookup still has a truthy `expiresAt`. Returns the new value
and the new state. -/
def incrementOp (now : Nat) (k : String) (delta : Int) (st : StoreState) :
    Option Int × StoreState :=
  let got := getOp now k st
  let st1 := got.2
  let currentValue : Option Int :=
    match got.1 with
    | some s => if s ≠ "" then jsParseInt s else some 0
    | none => some 0
  let newValue := jsAdd currentValue (some delta)
  let ttlSeconds : Option Nat :=
    match lookupSV k st1 with
    | some sv =>
      match sv.expiresAt with
      | some e => if e ≠ 0 then some ((e - now) / 1000) else none
      | none => none
    | none => none
  (newValue, setOp now k (jsNumToString newValue) ttlSeconds st1)

/-- `InMemoryStore.delete`. -/
def deleteOp (k : String) (st : StoreState) : StoreState :=
  assocDelete k st

/-- `InMemoryStore.expire`: overwrite `expiresAt` in place; no-op when the key
is absent. -/
def expireOp (now : Nat) (k : String) (ttlSeconds : Nat) : StoreState → StoreState
  | [] => []
  | e :: rest =>
    if e.1 = k then (e.1, ⟨e.2.value, some (now + ttlSeconds * 1000)⟩) :: rest
    else e :: expireOp now k ttlSeconds rest

/-- Removal of the first occurrence of a character, as JavaScript
`String.prototype.replace` with a one-character string pattern. -/
def removeFirstChar (t : Char) : List Char → List Char
  | [] => []
  | c :: cs => if c = t then cs else c :: removeFirstChar t cs

/-- The `pattern.replace('*', '')` step of `InMemoryStore.keys`: only the
first `*` is removed. -/
def jsReplaceFirstStar (s : String) : String :=
  ⟨removeFirstChar '*' s.toList⟩

/-- JavaScript `String.prototype.startsWith`, modelled on character lists. -/
def jsStartsWith (s pre : String) : Bool :=
  pre.toList.isPrefixOf s.toList

/-- Liveness test of `InMemoryStore.keys`: the source keeps an entry when
`!stored.expiresAt || Date.now() <= stored.expiresAt`. -/
def keysLive (now : Nat) (sv : StoredValue) : Bool :=
  match sv.expiresAt with
  | none => true
  | some e => e == 0 || decide (now ≤ e)

/-- `InMemoryStore.keys`: prefix matching only (the first `*` of the pattern
is deleted and the remainder is used with `startsWith`); each surviving key is
re-read from the map and kept only when not expired. Expired entries are
skipped but not deleted here. -/
def keysOp (now : Nat) (pattern : String) (st : StoreState) : List String :=
  let pre := jsReplaceFirstStar pattern
  (st.map (·.1)).filter (fun k =>
    jsStartsWith k pre &&
      match lookupSV k st with
      | some sv => keysLive now sv
      | none => false)

/-- `InMemoryStore.cleanup` (the periodic sweep): delete every entry whose
truthy `expiresAt` is strictly in the past. -/
def cleanupOp (now : Nat) (st : StoreState) : StoreState :=
  st.filter (fun e => !getExpired now e.2)

/-! ## Decision resolution (`WafEngine.determineDecision`) -/

/-- Engine operating mode (`WafMode`). -/
inductive WafMode where
  | OBSERVE
  | BLOCK
  deriving DecidableEq

/-- Three-way decision (`Decision`). -/
inductive Decision where
  | ALLOW
  | OBSERVE
  | BLOCK
  deriving DecidableEq

/-- `WafEngine.determineDecision`: OBSERVE mode always yields `OBSERVE`
(threshold breaches are only logged); BLOCK mode yields `BLOCK` exactly when
`totalScore >= blockThreshold`, else `ALLOW`. -/
def determineDecision (mode : WafMode) (blockThreshold : Int) (totalScore : Int) :
    Decision :=
  match mode with
  | .OBSERVE => Decision.OBSERVE
  | .BLOCK =>
    if totalScore ≥ blockThreshold then Decision.BLOCK
    else Decision.ALLOW

/-- C1. In OBSERVE mode the decision is always `OBSERVE` regardless of the
score and threshold; in BLOCK mode the decision is `BLOCK` exactly when
`totalScore ≥ blockThreshold` and `ALLOW` otherwise. -/
theorem determineDecision_spec (blockThreshold totalScore : Int) :
    determineDecision WafMode.OBSERVE blockThreshold totalScore = Decision.OBSERVE ∧
    (totalScore ≥ blockThreshold →
      determineDecision WafMode.BLOCK blockThreshold totalScore = Decision.BLOCK) ∧
    (¬ totalScore ≥ blockThreshold →
      determineDecision WafMode.BLOCK blockThreshold totalScore = Decision.ALLOW) := by
  refine ⟨rfl, ?_, ?_⟩ <;> intro h <;> simp [determineDecision, h]

/-- Witness for C1 at concrete scores: threshold 80, scores 90 and 10. -/
theorem determineDecision_spec_witness :
    determineDecision WafMode.OBSERVE 80 90 = Decision.OBSERVE ∧
    determineDecision WafMode.BLOCK 80 90 = Decision.BLOCK ∧
    determineDecision WafMode.BLOCK 80 10 = Decision.ALLOW :=
  ⟨(determineDecision_spec 80 90).1,
   (determineDecision_spec 80 90).2.1 (by decide),
   (determineDecision_spec 80 10).2.2 (by decide)⟩

/-! ## Association-list lemmas shared by the store claims -/

theorem lookupSV_eq_none_iff (k : String) (st : StoreState) :
    lookupSV k st = none ↔ k ∉ st.map Prod.fst := by
  induction st with
  | nil => simp [lookupSV]
  | cons e rest ih =>
    by_cases h : e.1 = k
    · simp [lookupSV, h]
    · simp only [lookupSV, if_neg h, List.map_cons, List.mem_cons, ih]
      constructor
      · rintro hnot (hk | hk)
        · exact h hk.symm
        · exact hnot hk
      · intro hnot hk
        exact hnot (Or.inr hk)

theorem lookupSV_mem (k : String) (sv : StoredValue) (st : StoreState)
    (h : lookupSV k st = some sv) : (k, sv) ∈ st := by
  induction st with
  | nil => simp [lookupSV] at h
  | cons e rest ih =>
    by_cases he : e.1 = k
    · simp [lookupSV, he] at h
      subst he h
      exact List.mem_cons_self _ _
    · simp [lookupSV, he] at h
      exact List.mem_cons_of_mem _ (ih h)

theorem lookupSV_assocSet_self (k : String) (v : StoredValue) (st : StoreState) :
    lookupSV k (assocSet k v st) = some v := by
  induction st with
  | nil => simp [assocSet, lookupSV]
  | cons e rest ih =>
    by_cases h : e.1 = k
    · simp [assocSet, h, lookupSV]
    · simp [assocSet, h, lookupSV, ih]

theorem mem_keysOp (now : Nat) (pat k : String) (st : StoreState) :
    k ∈ keysOp now pat st ↔
      jsStartsWith k (jsReplaceFirstStar pat) = true ∧
      ∃ sv, lookupSV k st = some sv ∧ keysLive now sv = true := by
  unfold keysOp
  rw [List.mem_filter]
  constructor
  · rintro ⟨hmem, hp⟩
    cases hl : lookupSV k st with
    | none => rw [hl] at hp; simp at hp
    | some sv =>
      rw [hl] at hp
      rw [Bool.and_eq_true] at hp
      exact ⟨hp.1, sv, rfl, hp.2⟩
  · rintro ⟨hs, sv, hl, hlive⟩
    refine ⟨?_, ?_⟩
    · by_contra hmem
      rw [← lookupSV_eq_none_iff] at hmem
      rw [hmem] at hl
      exact Option.noConfusion hl
    · rw [hl, Bool.and_eq_true]
      exact ⟨hs, hlive⟩

theorem removeFirstChar_append_star (l : List Char) (h : '*' ∉ l) :
    removeFirstChar '*' (l ++ ['*']) = l := by
  induction l with
  | nil => simp [removeFirstChar]
  | cons c cs ih =>
    simp only [List.mem_cons, not_or] at h
    have hc : ¬ c = '*' := fun hcc => h.1 hcc.symm
    have hstep : removeFirstChar '*' (c :: (cs ++ ['*'])) =
        c :: removeFirstChar '*' (cs ++ ['*']) := by
      simp [removeFirstChar, hc]
    rw [List.cons_append, hstep, ih h.2]

theorem jsReplaceFirstStar_append (p : String) (h : '*' ∉ p.toList) :
    jsReplaceFirstStar (p ++ "*") = p := by
  unfold jsReplaceFirstStar
  have hdata : (p ++ "*").toList = p.toList ++ ['*'] := by
    cases p
    rfl
  rw [hdata, removeFirstChar_append_star _ h]
  cases p
  rfl

theorem jsStartsWith_refl (k : String) : jsStartsWith k k = true := by
  unfold jsStartsWith
  rw [List.isPrefixOf_iff_prefix]

/-- C7. For a pattern of the form `p ++ "*"` (with no `*` inside `p`),
`InMemoryStore.keys` returns exactly the stored keys that start with the
prefix `p` and are not past their `expiresAt` at the time of the call
(matching is prefix-only, and no expired key is returned). The hypothesis
`hzero` excludes entries whose recorded expiry instant is the falsy epoch
value `0`, which the source treats as "no expiry". -/
theorem keys_prefix_spec (now : Nat) (p k : String) (st : StoreState)
    (hstar : '*' ∉ p.toList)
    (hzero : ∀ e ∈ st, e.2.expiresAt ≠ some 0) :
    k ∈ keysOp now (p ++ "*") st ↔
      jsStartsWith k p = true ∧
      ∃ sv, lookupSV k st = some sv ∧
        (sv.expiresAt = none ∨ ∃ e, sv.expiresAt = some e ∧ now ≤ e) := by
  rw [mem_keysOp, jsReplaceFirstStar_append p hstar]
  constructor
  · rintro ⟨hs, sv, hl, hlive⟩
    refine ⟨hs, sv, hl, ?_⟩
    have hmem := lookupSV_mem k sv st hl
    have hne := hzero _ hmem
    cases hea : sv.expiresAt with
    | none => exact Or.inl rfl
    | some e =>
      refine Or.inr ⟨e, rfl, ?_⟩
      rw [hea] at hne
      have hene : e ≠ 0 := fun h0 => hne (by rw [h0])
      simp only [keysLive, hea] at hlive
      rcases Bool.or_eq_true_iff.mp hlive with h | h
      · exact absurd (by simpa using h) hene
      · exact of_decide_eq_true h
  · rintro ⟨hs, sv, hl, hcase⟩
    refine ⟨hs, sv, hl, ?_⟩
    rcases hcase with hea | ⟨e, hea, hle⟩
    · simp [keysLive, hea]
    · simp [keysLive, hea, hle]

/-- Witness for C7: in a store holding `foo:a` (no TTL), `foo:b` (expired at
instant 5) and `bar:c`, the pattern `foo:*` at instant 10 returns `foo:a`. -/
theorem keys_prefix_spec_witness :
    "foo:a" ∈ keysOp 10 ("foo:" ++ "*")
      [("foo:a", ⟨"1", none⟩), ("foo:b", ⟨"2", some 5⟩), ("bar:c", ⟨"3", none⟩)] :=
  (keys_prefix_spec 10 "foo:" "foo:a" _ (by decide) (by decide)).mpr
    ⟨by decide, ⟨"1", none⟩, by decide, Or.inl rfl⟩

/-- C3. Evidence that `InMemoryStore.increment` does not preserve the expiry
instant of a key that has one, contrary to the source's own "기존 TTL 유지"
(keep the existing TTL) comment: at instant 0, incrementing a key expiring at
instant 500 drops the TTL entirely (the remaining 500 ms floor to 0 seconds,
which `set` treats as "no TTL"), and incrementing a key expiring at instant
1500 truncates the expiry to 1000. -/
theorem increment_ttl_not_preserved :
    (incrementOp 0 "k" 1 [("k", ⟨"1", some 500⟩)]).2 = [("k", ⟨"2", none⟩)] ∧
    (incrementOp 0 "k" 1 [("k", ⟨"1", some 1500⟩)]).2 = [("k", ⟨"2", some 1000⟩)] := by
  exact ⟨by decide, by decide⟩

/-- C10. `InMemoryStore.set` with `ttlSeconds = 0` stores the entry without
`expiresAt` (the value `0` is falsy), so the key never expires: `get` returns
it at every later instant and `keys` always lists it. Consequently
`increment` on a key whose remaining TTL is under one second re-stores it
without any expiry (the remaining time floors to `0` whole seconds). -/
theorem set_zero_ttl_never_expires (now : Nat) (k v : String) (st : StoreState) :
    lookupSV k (setOp now k v (some 0) st) = some ⟨v, none⟩ ∧
    (∀ now', (getOp now' k (setOp now k v (some 0) st)).1 = some v) ∧
    ('*' ∉ k.toList →
      ∀ now', k ∈ keysOp now' (k ++ "*") (setOp now k v (some 0) st)) ∧
    (∀ k' v' e delta, lookupSV k' st = some ⟨v', some e⟩ → now ≤ e →
      e - now < 1000 →
      lookupSV k' ((incrementOp now k' delta st).2) =
        some ⟨jsNumToString (jsAdd
          (if v' ≠ "" then jsParseInt v' else some 0) (some delta)), none⟩) := by
  have hset : lookupSV k (setOp now k v (some 0) st) = some ⟨v, none⟩ := by
    simp only [setOp, if_neg (by decide : ¬ (0 : Nat) ≠ 0)]
    exact lookupSV_assocSet_self k ⟨v, none⟩ st
  refine ⟨hset, ?_, ?_, ?_⟩
  · intro now'
    simp [getOp, hset, getExpired]
  · intro hstar now'
    rw [mem_keysOp, jsReplaceFirstStar_append k hstar]
    exact ⟨jsStartsWith_refl k, ⟨v, none⟩, hset, by simp [keysLive]⟩
  · intro k' v' e delta hl hle hsub
    have hexp : getExpired now ⟨v', some e⟩ = false := by
      simp [getExpired, decide_eq_false (Nat.not_lt.mpr hle)]
    by_cases he : e = 0
    · subst he
      simp only [incrementOp, getOp, hl, hexp, Bool.false_eq_true, if_false,
        ne_eq, not_true_eq_false, if_false, setOp]
      exact lookupSV_assocSet_self k' _ st
    · have hdiv : (e - now) / 1000 = 0 := Nat.div_eq_of_lt hsub
      simp only [incrementOp, getOp, hl, hexp, Bool.false_eq_true, if_false,
        ne_eq, he, not_false_eq_true, if_true, hdiv, setOp,
        not_true_eq_false]
      exact lookupSV_assocSet_self k' _ st

/-- Witness for C10: a zero-TTL `set` stores without expiry, and an
`increment` at instant 1000 on a key expiring at instant 1700 (700 ms left)
re-stores the key with no expiry at all. -/
theorem set_zero_ttl_never_expires_witness :
    lookupSV "a" (setOp 100 "a" "x" (some 0) []) = some ⟨"x", none⟩ ∧
    lookupSV "k" ((incrementOp 1000 "k" 1 [("k", ⟨"3", some 1700⟩)]).2) =
      some ⟨"4", none⟩ := by
  refine ⟨(set_zero_ttl_never_expires 100 "a" "x" []).1, ?_⟩
  have h := (set_zero_ttl_never_expires 1000 "k" "x"
    [("k", ⟨"3", some 1700⟩)]).2.2.2 "k" "3" 1700 1 (by decide) (by decide)
    (by decide)
  exact h.trans (by decide)

/-! ## Config validation (`src/packages/core/src/engine/config-validator.ts`) -/

/-- Rule element of `config.rules` as seen by `validateConfig`: only the
`name` field is consulted (`!rule.name` treats the empty string as missing). -/
structure RawRule where
  name : String
  deriving DecidableEq

/-- The `rules` field as a JavaScript value: either a proper array or some
other truthy non-array value (checked by `Array.isArray`). -/
inductive RulesField where
  | array (l : List RawRule)
  | nonArray
  deriving DecidableEq

/-- Error codes of the `WafError`s thrown by `validateConfig`. -/
inductive ValError where
  | CONFIG_MISSING
  | CONFIG_MODE_MISSING
  | CONFIG_THRESHOLD_MISSING
  | CONFIG_RULES_MISSING
  | CONFIG_STORE_MISSING
  | CONFIG_THRESHOLD_OUT_OF_RANGE
  | CONFIG_RULES_NOT_ARRAY
  | CONFIG_RULE_NAME_MISSING
  | CONFIG_RULE_NAME_DUPLICATE
  | CONFIG_JWT_SECRET_MISSING
  deriving DecidableEq

/-- The raw configuration object passed to `validateConfig`; `none` models an
absent (or falsy) field, and `store` records only whether a truthy store is
present. -/
structure RawConfig where
  mode : Option WafMode
  blockThreshold : Option Int
  rules : Option RulesField
  store : Bool
  verifySignature : Bool
  jwtSecret : Option String
  deriving DecidableEq

/-- Truthiness of an optional string field (absent or empty is falsy). -/
def jsTruthyStr : Option String → Bool
  | some s => s ≠ ""
  | none => false

/-- The `config.blockThreshold < 0 || config.blockThreshold > 100` test. -/
def outOfRange : Option Int → Bool
  | some t => decide (t < 0) || decide (t > 100)
  | none => false

/-- The `!Array.isArray(config.rules)` test at the point where `rules` is
known to be truthy. -/
def rulesNotArray : Option RulesField → Bool
  | some .nonArray => true
  | _ => false

/-- Projection to the rule list once `Array.isArray` has passed. -/
def rulesList : Option RulesField → List RawRule
  | some (.array l) => l
  | _ => []

/-- The duplicate-name loop of `validateConfig`: iterate the rules in order
with a `Set` of seen names; an empty name raises `CONFIG_RULE_NAME_MISSING`,
a repeated one `CONFIG_RULE_NAME_DUPLICATE`. -/
def checkRules : List RawRule → List String → Option ValError
  | [], _ => none
  | r :: rs, seen =>
    if r.name = "" then some .CONFIG_RULE_NAME_MISSING
    else if r.name ∈ seen then some .CONFIG_RULE_NAME_DUPLICATE
    else checkRules rs (r.name :: seen)

/-- `validateConfig`: the sequential checks of the source, in source order;
`some e` models a thrown `WafError` with code `e`, `none` models success. -/
def validateConfig : Option RawConfig → Option ValError
  | none => some .CONFIG_MISSING
  | some c =>
    if c.mode = none then some .CONFIG_MODE_MISSING
    else if c.blockThreshold = none then some .CONFIG_THRESHOLD_MISSING
    else if c.rules = none then some .CONFIG_RULES_MISSING
    else if c.store = false then some .CONFIG_STORE_MISSING
    else if outOfRange c.blockThreshold then some .CONFIG_THRESHOLD_OUT_OF_RANGE
    else if rulesNotArray c.rules then some .CONFIG_RULES_NOT_ARRAY
    else
      match checkRules (rulesList c.rules) [] with
      | some e => some e
      | none =>
        if c.verifySignature && !(jsTruthyStr c.jwtSecret) then
          some .CONFIG_JWT_SECRET_MISSING
        else none

/-- Counterexample to C5 as stated: a config with `blockThreshold = 101` and
a missing store fails with the missing-store error, not the
threshold-out-of-range error — store presence is checked before the range. -/
theorem validateConfig_order_counterexample :
    validateConfig (some ⟨some .BLOCK, some 101, some (.array []), false,
        false, none⟩) = some ValError.CONFIG_STORE_MISSING ∧
    validateConfig (some ⟨some .BLOCK, some 101, some (.array []), false,
        false, none⟩) ≠ some ValError.CONFIG_THRESHOLD_OUT_OF_RANGE := by
  exact ⟨by decide, by decide⟩

theorem checkRules_ok (l : List RawRule) (seen : List String)
    (h1 : ∀ r ∈ l, r.name ≠ "") (h2 : (l.map RawRule.name).Nodup)
    (h3 : ∀ r ∈ l, r.name ∉ seen) : checkRules l seen = none := by
  induction l generalizing seen with
  | nil => rfl
  | cons r rs ih =>
    have hr1 : r.name ≠ "" := h1 r (List.mem_cons_self r rs)
    have hr3 : r.name ∉ seen := h3 r (List.mem_cons_self r rs)
    simp only [checkRules, if_neg hr1, if_neg hr3]
    rw [List.map_cons, List.nodup_cons] at h2
    refine ih _ (fun x hx => h1 x (List.mem_cons_of_mem r hx)) h2.2 ?_
    intro x hx
    simp only [List.mem_cons, not_or]
    constructor
    · intro hxname
      exact h2.1 (hxname ▸ List.mem_map_of_mem RawRule.name hx)
    · exact h3 x (List.mem_cons_of_mem r hx)

theorem checkRules_empty_name (l : List RawRule) (seen : List String)
    (h2 : (l.map RawRule.name).Nodup) (h3 : ∀ r ∈ l, r.name ∉ seen)
    (hex : ∃ r ∈ l, r.name = "") :
    checkRules l seen = some ValError.CONFIG_RULE_NAME_MISSING := by
  induction l generalizing seen with
  | nil => simp at hex
  | cons r rs ih =>
    by_cases hr : r.name = ""
    · simp [checkRules, hr]
    · have hr3 : r.name ∉ seen := h3 r (List.mem_cons_self r rs)
      simp only [checkRules, if_neg hr, if_neg hr3]
      rw [List.map_cons, List.nodup_cons] at h2
      rcases hex with ⟨x, hx, hxe⟩
      rcases List.mem_cons.mp hx with hxr | hxr
      · exact absurd (hxr ▸ hxe) hr
      · refine ih _ h2.2 ?_ ⟨x, hxr, hxe⟩
        intro y hy
        simp only [List.mem_cons, not_or]
        exact ⟨fun hyname => h2.1 (hyname ▸ List.mem_map_of_mem RawRule.name hy),
          h3 y (List.mem_cons_of_mem r hy)⟩

theorem checkRules_duplicate (l : List RawRule) (seen : List String)
    (h1 : ∀ r ∈ l, r.name ≠ "")
    (hdup : ¬ (l.map RawRule.name).Nodup ∨ ∃ r ∈ l, r.name ∈ seen) :
    checkRules l seen = some ValError.CONFIG_RULE_NAME_DUPLICATE := by
  induction l generalizing seen with
  | nil =>
    rcases hdup with h | ⟨r, hr, _⟩
    · simp at h
    · simp at hr
  | cons r rs ih =>
    have hr1 : r.name ≠ "" := h1 r (List.mem_cons_self r rs)
    by_cases hrs : r.name ∈ seen
    · simp [checkRules, hr1, hrs]
    · simp only [checkRules, if_neg hr1, if_neg hrs]
      refine ih _ (fun x hx => h1 x (List.mem_cons_of_mem r hx)) ?_
      rcases hdup with h | ⟨x, hx, hxseen⟩
      · rw [List.map_cons, List.nodup_cons, not_and_or] at h
        rcases h with h | h
        · rw [not_not] at h
          rcases List.mem_map.mp h with ⟨x, hx, hxname⟩
          exact Or.inr ⟨x, hx, by rw [hxname]; exact List.mem_cons_self _ _⟩
        · exact Or.inl h
      · rcases List.mem_cons.mp hx with hxr | hxr
        · exact absurd (hxr ▸ hxseen) hrs
        · exact Or.inr ⟨x, hxr, List.mem_cons_of_mem _ hxseen⟩

theorem outOfRange_true {t : Int} (h : t < 0 ∨ 100 < t) :
    outOfRange (some t) = true := by
  rcases h with h | h <;> simp [outOfRange, h]

theorem outOfRange_false {t : Int} (h1 : 0 ≤ t) (h2 : t ≤ 100) :
    outOfRange (some t) = false := by
  simp only [outOfRange, Bool.or_eq_false_iff, decide_eq_false_iff_not]
  omega

/-- C5 (amended). `validateConfig` performs its checks in source order —
config present; `mode` present; `blockThreshold` present; `rules` present;
`store` present; `blockThreshold` in `[0,100]`; `rules` a proper array; each
rule in list order checked for a non-empty, not previously seen name; and
finally `verifySignature == true` requiring a `jwtSecret` — raising the
distinct named error of the first failing check. In particular a config with
`blockThreshold = 101` and a missing store fails with the missing-store
error, not the threshold-out-of-range error. -/
theorem validateConfig_check_order :
    validateConfig none = some ValError.CONFIG_MISSING ∧
    (∀ c : RawConfig, c.mode = none →
      validateConfig (some c) = some ValError.CONFIG_MODE_MISSING) ∧
    (∀ c : RawConfig, c.mode ≠ none → c.blockThreshold = none →
      validateConfig (some c) = some ValError.CONFIG_THRESHOLD_MISSING) ∧
    (∀ c : RawConfig, c.mode ≠ none → c.blockThreshold ≠ none →
      c.rules = none →
      validateConfig (some c) = some ValError.CONFIG_RULES_MISSING) ∧
    (∀ c : RawConfig, c.mode ≠ none → c.blockThreshold ≠ none →
      c.rules ≠ none → c.store = false →
      validateConfig (some c) = some ValError.CONFIG_STORE_MISSING) ∧
    (∀ (c : RawConfig) (t : Int), c.mode ≠ none → c.blockThreshold = some t →
      c.rules ≠ none → c.store = true → (t < 0 ∨ 100 < t) →
      validateConfig (some c) = some ValError.CONFIG_THRESHOLD_OUT_OF_RANGE) ∧
    (∀ (c : RawConfig) (t : Int), c.mode ≠ none → c.blockThreshold = some t →
      c.store = true → 0 ≤ t → t ≤ 100 → c.rules = some RulesField.nonArray →
      validateConfig (some c) = some ValError.CONFIG_RULES_NOT_ARRAY) ∧
    (∀ (c : RawConfig) (t : Int) (l : List RawRule), c.mode ≠ none →
      c.blockThreshold = some t → c.store = true → 0 ≤ t → t ≤ 100 →
      c.rules = some (RulesField.array l) → (∃ r ∈ l, r.name = "") →
      (l.map RawRule.name).Nodup →
      validateConfig (some c) = some ValError.CONFIG_RULE_NAME_MISSING) ∧
    (∀ (c : RawConfig) (t : Int) (l : List RawRule), c.mode ≠ none →
      c.blockThreshold = some t → c.store = true → 0 ≤ t → t ≤ 100 →
      c.rules = some (RulesField.array l) → (∀ r ∈ l, r.name ≠ "") →
      ¬ (l.map RawRule.name).Nodup →
      validateConfig (some c) = some ValError.CONFIG_RULE_NAME_DUPLICATE) ∧
    (∀ (c : RawConfig) (t : Int) (l : List RawRule), c.mode ≠ none →
      c.blockThreshold = some t → c.store = true → 0 ≤ t → t ≤ 100 →
      c.rules = some (RulesField.array l) → (∀ r ∈ l, r.name ≠ "") →
      (l.map RawRule.name).Nodup → c.verifySignature = true →
      jsTruthyStr c.jwtSecret = false →
      validateConfig (some c) = some ValError.CONFIG_JWT_SECRET_MISSING) ∧
    (∀ (c : RawConfig) (t : Int) (l : List RawRule), c.mode ≠ none →
      c.blockThreshold = some t → c.store = true → 0 ≤ t → t ≤ 100 →
      c.rules = some (RulesField.array l) → (∀ r ∈ l, r.name ≠ "") →
      (l.map RawRule.name).Nodup →
      (c.verifySignature = true → jsTruthyStr c.jwtSecret = true) →
      validateConfig (some c) = none) := by
  refine ⟨rfl, ?_, ?_, ?_, ?_, ?_, ?_, ?_, ?_, ?_, ?_⟩
  · intro c h
    simp [validateConfig, h]
  · intro c hm ht
    simp [validateConfig, hm, ht]
  · intro c hm ht hr
    simp [validateConfig, hm, ht, hr]
  · intro c hm ht hr hs
    simp [validateConfig, hm, ht, hr, hs]
  · intro c t hm ht hr hs hrange
    simp [validateConfig, hm, ht, hr, hs, outOfRange_true hrange]
  · intro c t hm ht hs h0 h100 hna
    simp [validateConfig, hm, ht, hs, hna, outOfRange_false h0 h100,
      rulesNotArray]
  · intro c t l hm ht hs h0 h100 harr hex hnodup
    have hchk := checkRules_empty_name l [] hnodup (by simp) hex
    simp [validateConfig, hm, ht, hs, harr, outOfRange_false h0 h100,
      rulesNotArray, rulesList, hchk]
  · intro c t l hm ht hs h0 h100 harr h1 hnd
    have hchk := checkRules_duplicate l [] h1 (Or.inl hnd)
    simp [validateConfig, hm, ht, hs, harr, outOfRange_false h0 h100,
      rulesNotArray, rulesList, hchk]
  · intro c t l hm ht hs h0 h100 harr h1 hnd hv hsec
    have hchk := checkRules_ok l [] h1 hnd (by simp)
    simp [validateConfig, hm, ht, hs, harr, outOfRange_false h0 h100,
      rulesNotArray, rulesList, hchk, hv, hsec]
  · intro c t l hm ht hs h0 h100 harr h1 hnd hsig
    have hchk := checkRules_ok l [] h1 hnd (by simp)
    by_cases hv : c.verifySignature = true
    · simp [validateConfig, hm, ht, hs, harr, outOfRange_false h0 h100,
        rulesNotArray, rulesList, hchk, hv, hsig hv]
    · simp only [Bool.not_eq_true] at hv
      simp [validateConfig, hm, ht, hs, harr, outOfRange_false h0 h100,
        rulesNotArray, rulesList, hchk, hv]

/-- Witness for C5 (amended): concrete configs hitting the missing-store
check before the out-of-range check, and a fully valid config. -/
theorem validateConfig_check_order_witness :
    validateConfig (some ⟨some .BLOCK, some 101, some (.array []), false,
        false, none⟩) = some ValError.CONFIG_STORE_MISSING ∧
    validateConfig (some ⟨some .BLOCK, some 101, some (.array []), true,
        false, none⟩) = some ValError.CONFIG_THRESHOLD_OUT_OF_RANGE ∧
    validateConfig (some ⟨some .BLOCK, some 80,
        some (.array [⟨"A"⟩, ⟨"B"⟩]), true, true, some "s"⟩) = none :=
  ⟨validateConfig_check_order.2.2.2.2.1 _ (by decide) (by decide) (by decide)
      (by decide),
   validateConfig_check_order.2.2.2.2.2.1 _ 101 (by decide) (by decide)
      (by decide) (by decide) (by decide),
   validateConfig_check_order.2.2.2.2.2.2.2.2.2.2 _ 80 [⟨"A"⟩, ⟨"B"⟩]
      (by decide) (by decide) (by decide) (by decide) (by decide) (by decide)
      (by decide) (by decide) (by decide)⟩

/-! ## Shared data model (`src/packages/core/src/types.ts`) -/

/-- Decoded JWT payload, restricted to the claims the embedded code paths
consult (the source type is an open map; unused custom claims are omitted). -/
structure JwtPayload where
  sub : Option String
  iss : Option String
  aud : Option String
  exp : Option Int
  iat : Option Int
  nbf : Option Int
  jti : Option String
  user_id : Option String
  userId : Option String
  deriving DecidableEq

/-- A `JwtPayload` with every claim absent. -/
def emptyPayload : JwtPayload :=
  ⟨none, none, none, none, none, none, none, none, none⟩

/-- The `RiskEvent` record built once per request (the opaque `metadata`
map, which no embedded code path reads, is omitted). -/
structure RiskEvent where
  token : String
  payload : Option JwtPayload
  isValid : Bool
  invalidReason : Option String
  ip : String
  path : String
  method : String
  userAgent : Option String
  timestamp : Nat
  deriving DecidableEq

/-- Result of one rule invocation; `details` is modelled as an optional
string-to-string record. -/
structure RuleResult where
  ruleName : String
  score : Int
  reason : String
  details : Option (List (String × String))
  deriving DecidableEq

/-! ## The engine loop (`WafEngine.analyze`) -/

/-- A rule as the engine sees it: static identity plus an `analyze` function;
`Except.error msg` models `analyze` throwing an exception with message
`msg`. -/
structure RuleM where
  name : String
  description : String
  weight : Int
  enabled : Bool
  analyze : RiskEvent → StoreState → Except String (RuleResult × StoreState)

/-- The zero-score result the engine records in place of a throwing rule:
reason "규칙 실행 중 에러 발생" and the error message under `details.error`. -/
def ruleErrorResult (n msg : String) : RuleResult :=
  ⟨n, 0, "규칙 실행 중 에러 발생", some [("error", msg)]⟩

/-- Output of `WafEngine.analyze` before decision resolution. -/
structure EngineOut where
  ruleResults : List RuleResult
  totalScore : Int
  store : StoreState

/-- The rule loop of `WafEngine.analyze`: disabled rules are skipped; an
enabled rule's result is appended and its score added to `totalScore`; a
throwing rule is caught and recorded as `ruleErrorResult` without aborting
the batch. -/
def engineAnalyze : List RuleM → RiskEvent → StoreState → EngineOut
  | [], _, st => ⟨[], 0, st⟩
  | r :: rs, ev, st =>
    if r.enabled then
      match r.analyze ev st with
      | .ok (res, st1) =>
        let rest := engineAnalyze rs ev st1
        ⟨res :: rest.ruleResults, res.score + rest.totalScore, rest.store⟩
      | .error msg =>
        let rest := engineAnalyze rs ev st
        ⟨ruleErrorResult r.name msg :: rest.ruleResults, rest.totalScore,
          rest.store⟩
    else engineAnalyze rs ev st

/-- C2. `WafEngine.analyze` returns a `totalScore` equal to the exact sum of
the scores of the returned `ruleResults`, which contain one entry per enabled
rule in declaration order (witnessed by the rule names); a rule whose
`analyze` throws contributes the zero-score `ruleErrorResult` annotated with
the error message, and the rest of the batch still runs. -/
theorem engine_analyze_spec (rules : List RuleM) (ev : RiskEvent)
    (st : StoreState)
    (hnames : ∀ r ∈ rules, ∀ ev' st' res st'',
      r.analyze ev' st' = .ok (res, st'') → res.ruleName = r.name) :
    (engineAnalyze rules ev st).totalScore =
      ((engineAnalyze rules ev st).ruleResults.map RuleResult.score).sum ∧
    (engineAnalyze rules ev st).ruleResults.map RuleResult.ruleName =
      (rules.filter RuleM.enabled).map RuleM.name ∧
    (∀ r rest msg, rules = r :: rest → r.enabled = true →
      r.analyze ev st = .error msg →
      (engineAnalyze rules ev st).ruleResults.head? =
        some (ruleErrorResult r.name msg) ∧
      (ruleErrorResult r.name msg).score = 0 ∧
      (ruleErrorResult r.name msg).details = some [("error", msg)]) := by
  have h1 : ∀ (rs : List RuleM) (st0 : StoreState),
      (engineAnalyze rs ev st0).totalScore =
        ((engineAnalyze rs ev st0).ruleResults.map RuleResult.score).sum := by
    intro rs
    induction rs with
    | nil => intro st0; simp [engineAnalyze]
    | cons r rest ih =>
      intro st0
      by_cases he : r.enabled
      · cases han : r.analyze ev st0 with
        | ok p =>
          obtain ⟨res, st1⟩ := p
          simp [engineAnalyze, he, han, ih st1]
        | error msg =>
          simp [engineAnalyze, he, han, ruleErrorResult, ih st0]
      · simp [engineAnalyze, he, ih st0]
  have h2 : ∀ (rs : List RuleM),
      (∀ r ∈ rs, ∀ ev' st' res st'',
        r.analyze ev' st' = .ok (res, st'') → res.ruleName = r.name) →
      ∀ st0 : StoreState,
      (engineAnalyze rs ev st0).ruleResults.map RuleResult.ruleName =
        (rs.filter RuleM.enabled).map RuleM.name := by
    intro rs
    induction rs with
    | nil => intro _ st0; simp [engineAnalyze]
    | cons r rest ih =>
      intro hn st0
      have hn' : ∀ x ∈ rest, ∀ ev' st' res st'',
          x.analyze ev' st' = .ok (res, st'') → res.ruleName = x.name :=
        fun x hx => hn x (List.mem_cons_of_mem r hx)
      by_cases he : r.enabled
      · cases han : r.analyze ev st0 with
        | ok p =>
          obtain ⟨res, st1⟩ := p
          have hrn := hn r (List.mem_cons_self r rest) ev st0 res st1 han
          simp [engineAnalyze, he, han, List.filter_cons_of_pos, hrn,
            ih hn' st1]
        | error msg =>
          simp [engineAnalyze, he, han, List.filter_cons_of_pos,
            ruleErrorResult, ih hn' st0]
      · simp [engineAnalyze, he, List.filter_cons_of_neg, ih hn' st0]
  refine ⟨h1 rules st, h2 rules hnames st, ?_⟩
  rintro r rest msg rfl he han
  refine ⟨?_, rfl, rfl⟩
  simp [engineAnalyze, he, han]

/-- Throwing rule used by the C2 witness. -/
def wRule1 : RuleM := ⟨"R1", "", 1, true, fun _ _ => .error "boom"⟩

/-- Succeeding rule used by the C2 witness. -/
def wRule2 : RuleM := ⟨"R2", "", 1, true, fun _ st => .ok (⟨"R2", 7, "ok", none⟩, st)⟩

/-- Disabled rule used by the C2 witness. -/
def wRule0 : RuleM := ⟨"R0", "", 1, false, fun _ st => .ok (⟨"R0", 3, "ok", none⟩, st)⟩

/-- Event used by the C2 witness. -/
def wEvent : RiskEvent := ⟨"t", none, true, none, "1.1.1.1", "/", "GET", none, 0⟩

/-- Witness for C2: with a throwing first rule, a succeeding second rule and
a disabled third rule, the error entry heads the results and the totals
match. -/
theorem engine_analyze_spec_witness :
    (engineAnalyze [wRule1, wRule2, wRule0] wEvent []).ruleResults.head? =
      some (ruleErrorResult "R1" "boom") ∧
    (engineAnalyze [wRule1, wRule2, wRule0] wEvent []).totalScore =
      ((engineAnalyze [wRule1, wRule2, wRule0] wEvent []).ruleResults.map
        RuleResult.score).sum ∧
    (engineAnalyze [wRule1, wRule2, wRule0] wEvent []).ruleResults.map
        RuleResult.ruleName =
      ([wRule1, wRule2, wRule0].filter RuleM.enabled).map RuleM.name := by
  have hn : ∀ r ∈ [wRule1, wRule2, wRule0], ∀ ev' st' res st'',
      r.analyze ev' st' = .ok (res, st'') → res.ruleName = r.name := by
    intro r hr ev' st' res st'' han
    simp only [List.mem_cons, List.not_mem_nil, or_false] at hr
    rcases hr with rfl | rfl | rfl
    · exact absurd han (by simp [wRule1])
    · simp only [wRule2] at han
      injection han with h
      rw [show res = (⟨"R2", 7, "ok", none⟩ : RuleResult) from
        (congrArg Prod.fst h).symm]
      rfl
    · simp only [wRule0] at han
      injection han with h
      rw [show res = (⟨"R0", 3, "ok", none⟩ : RuleResult) from
        (congrArg Prod.fst h).symm]
      rfl
  have h := engine_analyze_spec [wRule1, wRule2, wRule0] wEvent [] hn
  exact ⟨(h.2.2 wRule1 [wRule2, wRule0] "boom" rfl rfl rfl).1, h.1, h.2.1⟩

/-! ## The safe JWT decoder (`decodeJwt` in the engine sources) -/

/-- JSON values appearing as JWT header fields. -/
inductive JsVal where
  | str (s : String)
  | num (n : Int)
  | boolean (b : Bool)
  | nullv
  deriving DecidableEq

/-- JavaScript truthiness of a `JsVal`. -/
def jsTruthy : JsVal → Bool
  | .str s => s ≠ ""
  | .num n => n ≠ 0
  | .boolean b => b
  | .nullv => false

/-- A parsed JWT header: a JSON object as an ordered field list (JSON.parse
keeps one binding per key, so `Object.keys` is the list of first components). -/
abbrev JwtHeader : Type := List (String × JsVal)

/-- Property access `header[k]` on a parsed header. -/
def jsGetField : JwtHeader → String → Option JsVal
  | [], _ => none
  | e :: rest, k => if e.1 = k then some e.2 else jsGetField rest k

/-- Character-level splitting used to model `String.prototype.split('.')`. -/
def splitDotChars : List Char → List (List Char)
  | [] => [[]]
  | c :: cs =>
    let rest := splitDotChars cs
    if c = '.' then [] :: rest
    else
      match rest with
      | r :: rs => (c :: r) :: rs
      | [] => [[c]]

/-- JavaScript `token.split('.')` (the separator is the one-character
string `"."`; an empty input yields `[""]`). -/
def jsSplitDot (s : String) : List String :=
  (splitDotChars s.toList).map (fun l => ⟨l⟩)

/-- Node platform primitives used by the sources but external to the
repository: `Buffer.from(s, 'base64').toString('utf-8')`,
`Buffer.from(s, 'base64url').toString('utf-8')`, `JSON.parse` specialised to
the header / payload shapes (returning `none` when `JSON.parse` throws), and
the `crypto` HMAC-SHA256 pipeline of `decodeJwt` (already base64url-encoded
with `=` stripped, as in the source). Everything downstream of these
parameters is translated from the repository's code. -/
structure JsPrims where
  base64ToString : String → String
  base64UrlToString : String → String
  jsonParseHeader : String → Option JwtHeader
  jsonParsePayload : String → Option JwtPayload
  hmacSha256B64url : String → String → String

/-- The repository's `base64UrlDecode` helper: map the URL alphabet back to
standard base64 (`-` to `+`, `_` to `/`), pad with `=` until the length is a
multiple of 4, then decode via the Buffer primitive. -/
def base64UrlDecode (prims : JsPrims) (s : String) : String :=
  let replaced := s.toList.map
    (fun c => if c = '-' then '+' else if c = '_' then '/' else c)
  let padded := replaced ++ List.replicate ((4 - replaced.length % 4) % 4) '='
  prims.base64ToString ⟨padded⟩

/-- Result record of `decodeJwt`. -/
structure DecodeResult where
  payload : Option JwtPayload
  isValid : Bool
  invalidReason : Option String
  deriving DecidableEq

/-- The `payload.exp && payload.exp * 1000 < Date.now()` test: a falsy
(zero or absent) `exp` short-circuits to false. -/
def jwtExpCheckB (p : JwtPayload) (now : Int) : Bool :=
  match p.exp with
  | some e => decide (e ≠ 0) && decide (e * 1000 < now)
  | none => false

/-- The `payload.nbf && payload.nbf * 1000 > Date.now()` test. -/
def jwtNbfCheckB (p : JwtPayload) (now : Int) : Bool :=
  match p.nbf with
  | some n => decide (n ≠ 0) && decide (n * 1000 > now)
  | none => false

/-- `decodeJwt`: split into three segments; extract the payload even when
validation fails; without `verify` check only `exp`; with `verify` require a
truthy secret, an `HS256` header, a byte-for-byte signature match, and then
check `exp` and `nbf`. Every failure is reported as `isValid = false` with a
reason, never thrown. -/
def decodeJwt (prims : JsPrims) (now : Int) (token : String) (verify : Bool)
    (secret : Option String) : DecodeResult :=
  match jsSplitDot token with
  | [headerB64, payloadB64, signatureB64] =>
    match prims.jsonParsePayload (base64UrlDecode prims payloadB64) with
    | none => ⟨none, false, some "페이로드 디코딩에 실패했습니다."⟩
    | some payload =>
      if verify = false then
        if jwtExpCheckB payload now then
          ⟨some payload, false, some "토큰이 만료되었습니다."⟩
        else ⟨some payload, true, none⟩
      else if jsTruthyStr secret = false then
        ⟨some payload, false, some "서명 검증을 위해서는 secret이 필요합니다."⟩
      else
        match prims.jsonParseHeader (base64UrlDecode prims headerB64) with
        | none => ⟨some payload, false, some "서명 검증 중 에러가 발생했습니다."⟩
        | some header =>
          if jsGetField header "alg" ≠ some (.str "HS256") then
            ⟨some payload, false,
              some "지원하지 않는 알고리즘입니다. 현재는 HS256만 지원합니다."⟩
          else
            let signature :=
              prims.hmacSha256B64url (secret.getD "")
                (headerB64 ++ "." ++ payloadB64)
            if signature ≠ signatureB64 then
              ⟨some payload, false, some "서명 검증에 실패했습니다."⟩
            else if jwtExpCheckB payload now then
              ⟨some payload, false, some "토큰이 만료되었습니다."⟩
            else if jwtNbfCheckB payload now then
              ⟨some payload, false, some "토큰이 아직 유효하지 않습니다."⟩
            else ⟨some payload, true, none⟩
  | _ => ⟨none, false,
      some "JWT 형식이 올바르지 않습니다. 3개 부분(header.payload.signature)으로 구성되어야 합니다."⟩

/-- Platform instance for the C6 counterexample: the payload segment `PAYL`
parses to a payload whose `exp` claim is `0` (the epoch — strictly in the
past at any positive instant). -/
def zeroExpPrims : JsPrims :=
  ⟨id, id, fun _ => none,
   fun s => if s = "PAYL" then some { emptyPayload with exp := some 0 }
            else none,
   fun _ _ => "SIG"⟩

/-- Counterexample to C6 as stated: a token whose payload carries the exp
claim `0`, which is strictly in the past at instant 3600000, is nevertheless
reported `isValid = true` by `decodeJwt` without verification — the source
guards the expiry test with JavaScript truthiness (`payload.exp && ...`), so
the falsy value `0` skips it. -/
theorem decodeJwt_exp_zero_counterexample :
    zeroExpPrims.jsonParsePayload (base64UrlDecode zeroExpPrims "PAYL") =
      some { emptyPayload with exp := some 0 } ∧
    ((0 : Int) * 1000 < 3600000) ∧
    decodeJwt zeroExpPrims 3600000 "HEAD.PAYL.SIG" false none =
      ⟨some { emptyPayload with exp := some 0 }, true, none⟩ := by
  exact ⟨by decide, by decide, by decide⟩

/-- C6 (amended). For every token whose payload segment base64url-decodes and
JSON-parses to a payload with a nonzero (truthy) `exp` claim strictly in the
past, `decodeJwt` reports `isValid = false` with the expiry reason and still
returns the decoded payload — when `verify` is false (with or without a
secret) and when `verify` is true with the correct secret (matching
signature). The nonzero condition is forced by the source's truthiness guard
`payload.exp && ...`, which skips the check when `exp` is `0`. -/
theorem decodeJwt_expired_always (prims : JsPrims) (now : Int)
    (token hB pB sB sec : String) (p : JwtPayload) (e : Int) (hdr : JwtHeader)
    (hsplit : jsSplitDot token = [hB, pB, sB])
    (hpay : prims.jsonParsePayload (base64UrlDecode prims pB) = some p)
    (hexp : p.exp = some e) (he0 : e ≠ 0) (hpast : e * 1000 < now)
    (hhead : prims.jsonParseHeader (base64UrlDecode prims hB) = some hdr)
    (halg : jsGetField hdr "alg" = some (.str "HS256"))
    (hsec : sec ≠ "")
    (hsig : prims.hmacSha256B64url sec (hB ++ "." ++ pB) = sB) :
    decodeJwt prims now token false none =
      ⟨some p, false, some "토큰이 만료되었습니다."⟩ ∧
    decodeJwt prims now token false (some sec) =
      ⟨some p, false, some "토큰이 만료되었습니다."⟩ ∧
    decodeJwt prims now token true (some sec) =
      ⟨some p, false, some "토큰이 만료되었습니다."⟩ := by
  have hchk : jwtExpCheckB p now = true := by
    simp [jwtExpCheckB, hexp, he0, hpast]
  refine ⟨?_, ?_, ?_⟩
  · simp [decodeJwt, hsplit, hpay, hchk]
  · simp [decodeJwt, hsplit, hpay, hchk]
  · simp [decodeJwt, hsplit, hpay, hchk, jsTruthyStr, hsec, hhead, halg,
      Option.getD, hsig]

/-- Platform instance for the C6 witness: `HEAD` parses to an HS256 header,
`PAYL` to a payload expiring at epoch second 1, and the HMAC primitive always
produces the signature segment `SIG`. -/
def c6Prims : JsPrims :=
  ⟨id, id,
   fun s => if s = "HEAD" then some [("alg", JsVal.str "HS256")] else none,
   fun s => if s = "PAYL" then some { emptyPayload with exp := some 1 }
            else none,
   fun _ _ => "SIG"⟩

/-- Witness for C6 (amended): the token `HEAD.PAYL.SIG` with `exp = 1`, one
hour after the epoch, is expired both without verification and with a
matching signature. -/
theorem decodeJwt_expired_always_witness :
    decodeJwt c6Prims 3600000 "HEAD.PAYL.SIG" false none =
      ⟨some { emptyPayload with exp := some 1 }, false,
        some "토큰이 만료되었습니다."⟩ ∧
    decodeJwt c6Prims 3600000 "HEAD.PAYL.SIG" true (some "key") =
      ⟨some { emptyPayload with exp := some 1 }, false,
        some "토큰이 만료되었습니다."⟩ := by
  have h := decodeJwt_expired_always c6Prims 3600000 "HEAD.PAYL.SIG"
    "HEAD" "PAYL" "SIG" "key" { emptyPayload with exp := some 1 } 1
    [("alg", JsVal.str "HS256")] (by decide) (by decide) (by decide)
    (by decide) (by decide) (by decide) (by decide) (by decide) (by decide)
  exact ⟨h.1, h.2.2⟩

/-- C9. When `verify` is false, `decodeJwt` never consults `nbf`: a
structurally valid token whose payload carries a future (truthy) `nbf` and an
absent or in-the-future `exp` yields `isValid = true`; `nbf` is enforced only
on the `verify = true` path after a successful signature match, where the
same token is rejected as not yet valid. -/
theorem decodeJwt_nbf_only_with_verify (prims : JsPrims) (now : Int)
    (token hB pB sB sec : String) (p : JwtPayload) (n : Int) (hdr : JwtHeader)
    (hsplit : jsSplitDot token = [hB, pB, sB])
    (hpay : prims.jsonParsePayload (base64UrlDecode prims pB) = some p)
    (hnbf : p.nbf = some n) (hn0 : n ≠ 0) (hfuture : now < n * 1000)
    (hexp : p.exp = none ∨ ∃ e, p.exp = some e ∧ now ≤ e * 1000)
    (hhead : prims.jsonParseHeader (base64UrlDecode prims hB) = some hdr)
    (halg : jsGetField hdr "alg" = some (.str "HS256"))
    (hsec : sec ≠ "")
    (hsig : prims.hmacSha256B64url sec (hB ++ "." ++ pB) = sB) :
    decodeJwt prims now token false (some sec) = ⟨some p, true, none⟩ ∧
    decodeJwt prims now token false none = ⟨some p, true, none⟩ ∧
    decodeJwt prims now token true (some sec) =
      ⟨some p, false, some "토큰이 아직 유효하지 않습니다."⟩ := by
  have hchk : jwtExpCheckB p now = false := by
    rcases hexp with he | ⟨e, he, hle⟩
    · simp [jwtExpCheckB, he]
    · simp [jwtExpCheckB, he]
      intro _
      omega
  have hnchk : jwtNbfCheckB p now = true := by
    simp [jwtNbfCheckB, hnbf, hn0]
    omega
  refine ⟨?_, ?_, ?_⟩
  · simp [decodeJwt, hsplit, hpay, hchk]
  · simp [decodeJwt, hsplit, hpay, hchk]
  · simp [decodeJwt, hsplit, hpay, hchk, jsTruthyStr, hsec, hhead, halg,
      Option.getD, hsig, hnchk]

/-- Platform instance for the C9 witness: payload with `nbf` one hour in the
future and no `exp`. -/
def c9Prims : JsPrims :=
  ⟨id, id,
   fun s => if s = "HEAD" then some [("alg", JsVal.str "HS256")] else none,
   fun s => if s = "PAYL" then some { emptyPayload with nbf := some 3600 }
            else none,
   fun _ _ => "SIG"⟩

/-- Witness for C9: at the epoch instant 1000, the not-yet-valid token passes
without verification and is rejected with verification. -/
theorem decodeJwt_nbf_only_with_verify_witness :
    decodeJwt c9Prims 1000 "HEAD.PAYL.SIG" false none =
      ⟨some { emptyPayload with nbf := some 3600 }, true, none⟩ ∧
    decodeJwt c9Prims 1000 "HEAD.PAYL.SIG" true (some "key") =
      ⟨some { emptyPayload with nbf := some 3600 }, false,
        some "토큰이 아직 유효하지 않습니다."⟩ := by
  have h := decodeJwt_nbf_only_with_verify c9Prims 1000 "HEAD.PAYL.SIG"
    "HEAD" "PAYL" "SIG" "key" { emptyPayload with nbf := some 3600 } 3600
    [("alg", JsVal.str "HS256")] (by decide) (by decide) (by decide)
    (by decide) (by decide) (Or.inl (by decide)) (by decide) (by decide)
    (by decide) (by decide)
  exact ⟨h.2.1, h.2.2⟩

/-! ## Rule helpers (`src/packages/core/src/rules/base.ts` and shared JS) -/

/-- `BaseRule.createResult`: clamp the score into `[0, 100]` via
`Math.min(100, Math.max(0, score))`. -/
def createResult (n : String) (score : Int) (reason : String)
    (details : Option (List (String × String))) : RuleResult :=
  ⟨n, min 100 (max 0 score), reason, details⟩

/-- `BaseRule.passResult`: score 0 with reason "정상". -/
def passResult (n : String) : RuleResult :=
  ⟨n, 0, "정상", none⟩

/-- `BaseRule.incrementCounter`: increment, then `expire` when the `ttl`
argument is truthy (nonzero) — note that this sets the TTL on every call. -/
def incrementCounterOp (now : Nat) (k : String) (delta : Int)
    (ttl : Option Nat) (st : StoreState) : Option Int × StoreState :=
  let c := (incrementOp now k delta st).1
  let st1 := (incrementOp now k delta st).2
  match ttl with
  | some t => if t ≠ 0 then (c, expireOp now k t st1) else (c, st1)
  | none => (c, st1)

/-- Substring occurrence on character lists. -/
def listContainsSub (sub : List Char) : List Char → Bool
  | [] => sub.isEmpty
  | c :: cs => sub.isPrefixOf (c :: cs) || listContainsSub sub cs

/-- JavaScript `s.includes(sub)`. -/
def jsIncludes (s sub : String) : Bool :=
  listContainsSub sub.toList s.toList

/-- JavaScript `o?.includes(sub)` used as a condition: `undefined` is falsy. -/
def jsIncludesOpt (o : Option String) (sub : String) : Bool :=
  match o with
  | some s => jsIncludes s sub
  | none => false

/-- JavaScript `String.prototype.toUpperCase` (ASCII). -/
def jsToUpper (s : String) : String :=
  ⟨s.toList.map Char.toUpper⟩

/-- JavaScript `String.prototype.toLowerCase` (ASCII). -/
def jsToLower (s : String) : String :=
  ⟨s.toList.map Char.toLower⟩

/-- JavaScript `String.prototype.endsWith`, modelled on character lists. -/
def jsEndsWith (s suf : String) : Bool :=
  suf.toList.isSuffixOf s.toList

/-- `extractUserId` from the risk-event builder: `sub`, then `user_id`, then
`userId`, each taken only when truthy. -/
def extractUserId : Option JwtPayload → Option String
  | none => none
  | some p =>
    if jsTruthyStr p.sub then p.sub
    else if jsTruthyStr p.user_id then p.user_id
    else if jsTruthyStr p.userId then p.userId
    else none

/-- The `event.payload?.jti` access guarded by `if (!jti)`: an absent or
empty JTI cannot be tracked. -/
def getJti : Option JwtPayload → Option String
  | none => none
  | some p =>
    match p.jti with
    | some j => if j ≠ "" then some j else none
    | none => none

/-! ## The nine rule variants (`src/packages/core/src/rules/`) -/

/-- `ExpiredTokenFloodRule.analyze`: per-IP counter over a 60 s window,
threshold 5, score 30, triggered by invalid events whose reason mentions
"만료" (expired). -/
def expiredTokenFloodAnalyze (now : Nat) (ev : RiskEvent) (st : StoreState) :
    RuleResult × StoreState :=
  if ev.isValid then
    (createResult "ExpiredTokenFlood" 0 "토큰이 유효함" none, st)
  else if jsIncludesOpt ev.invalidReason "만료" = false then
    (createResult "ExpiredTokenFlood" 0 "토큰 무효 이유가 만료가 아님" none, st)
  else
    let key := "waf:expired:" ++ ev.ip
    let c := (incrementOp now key 1 st).1
    let st1 := (incrementOp now key 1 st).2
    let st2 := if c = some 1 then expireOp now key 60 st1 else st1
    if jsGe c 5 then
      (createResult "ExpiredTokenFlood" 30
        ("60초 내 만료된 토큰 " ++ jsNumToString c ++ "회 시도 (임계값: 5)")
        (some [("ip", ev.ip), ("attemptCount", jsNumToString c)]), st2)
    else
      (createResult "ExpiredTokenFlood" 0
        ("만료 토큰 시도 " ++ jsNumToString c ++ "회 (임계값 미만)") none, st2)

/-- `InvalidSignatureSpikeRule.analyze`: per-IP counter over 300 s,
threshold 10, score 40, triggered by invalid events whose reason mentions
"서명" (signature). -/
def invalidSignatureSpikeAnalyze (now : Nat) (ev : RiskEvent)
    (st : StoreState) : RuleResult × StoreState :=
  if ev.isValid then
    (createResult "InvalidSignatureSpike" 0 "토큰이 유효함" none, st)
  else if jsIncludesOpt ev.invalidReason "서명" = false then
    (createResult "InvalidSignatureSpike" 0
      "토큰 무효 이유가 서명 검증 실패가 아님" none, st)
  else
    let key := "waf:invalid_sig:" ++ ev.ip
    let c := (incrementOp now key 1 st).1
    let st1 := (incrementOp now key 1 st).2
    let st2 := if c = some 1 then expireOp now key 300 st1 else st1
    if jsGe c 10 then
      (createResult "InvalidSignatureSpike" 40
        ("300초 내 서명 검증 실패 " ++ jsNumToString c ++ "회 (임계값: 10)")
        (some [("ip", ev.ip), ("attemptCount", jsNumToString c)]), st2)
    else
      (createResult "InvalidSignatureSpike" 0
        ("서명 검증 실패 " ++ jsNumToString c ++ "회 (임계값 미만)") none, st2)

/-- The anchored, case-insensitive refresh-endpoint patterns. -/
def refreshSuffixes : List String :=
  ["/refresh", "/token/refresh", "/auth/refresh", "/api/refresh",
   "/api/token/refresh", "/api/auth/refresh"]

/-- `RefreshEndpointAbuseRule.isRefreshEndpoint`: the six regexes are
case-insensitive suffix matches. -/
def isRefreshEndpoint (path : String) : Bool :=
  refreshSuffixes.any (fun suf => jsEndsWith (jsToLower path) suf)

/-- `RefreshEndpointAbuseRule.analyze`: per-user (IP fallback) counter over
600 s, threshold 20, score 35. -/
def refreshEndpointAbuseAnalyze (now : Nat) (ev : RiskEvent)
    (st : StoreState) : RuleResult × StoreState :=
  if isRefreshEndpoint ev.path = false then
    (createResult "RefreshEndpointAbuse" 0 "리프레시 엔드포인트가 아님" none, st)
  else
    let identifier :=
      match extractUserId ev.payload with
      | some u => u
      | none => ev.ip
    let key := "waf:refresh:" ++ identifier
    let c := (incrementOp now key 1 st).1
    let st1 := (incrementOp now key 1 st).2
    let st2 := if c = some 1 then expireOp now key 600 st1 else st1
    if jsGe c 20 then
      (createResult "RefreshEndpointAbuse" 35
        ("600초 내 리프레시 엔드포인트 " ++ jsNumToString c ++ "회 호출 (임계값: 20)")
        (some [("identifier", identifier), ("ip", ev.ip)]), st2)
    else
      (createResult "RefreshEndpointAbuse" 0
        ("리프레시 호출 " ++ jsNumToString c ++ "회 (임계값 미만)") none, st2)

/-- The unanchored, case-insensitive privileged-endpoint patterns. -/
def privilegeSubstrings : List String :=
  ["/admin/", "/api/admin/", "/api/users/delete", "/api/user/delete",
   "/api/config/", "/api/settings/", "/api/system/", "/management/",
   "/api/management/"]

/-- `PrivilegeEndpointWeightingRule.isPrivilegedEndpoint`: the nine regexes
are case-insensitive substring matches. -/
def isPrivilegedEndpoint (path : String) : Bool :=
  privilegeSubstrings.any (fun sub => jsIncludes (jsToLower path) sub)

/-- `PrivilegeEndpointWeightingRule.analyze`: stateless; 20 points on every
privileged-endpoint access. -/
def privilegeEndpointWeightingAnalyze (ev : RiskEvent) (st : StoreState) :
    RuleResult × StoreState :=
  if isPrivilegedEndpoint ev.path = false then
    (createResult "PrivilegeEndpointWeighting" 0 "일반 엔드포인트 접근" none, st)
  else
    (createResult "PrivilegeEndpointWeighting" 20 "민감한 관리자 엔드포인트 접근"
      (some [("path", ev.path), ("ip", ev.ip)]), st)

/-- `TokenReplayDetectionRule.analyze`: per-JTI counter over 60 s, threshold
30, score 25. -/
def tokenReplayDetectionAnalyze (now : Nat) (ev : RiskEvent)
    (st : StoreState) : RuleResult × StoreState :=
  match getJti ev.payload with
  | none => (createResult "TokenReplayDetection" 0 "JTI가 없어 추적 불가" none, st)
  | some jti =>
    let key := "waf:replay:" ++ jti
    let c := (incrementOp now key 1 st).1
    let st1 := (incrementOp now key 1 st).2
    let st2 := if c = some 1 then expireOp now key 60 st1 else st1
    if jsGe c 30 then
      (createResult "TokenReplayDetection" 25
        ("60초 내 같은 토큰 " ++ jsNumToString c ++ "회 사용 (임계값: 30)")
        (some [("jti", jti), ("ip", ev.ip)]), st2)
    else
      (createResult "TokenReplayDetection" 0
        ("토큰 사용 " ++ jsNumToString c ++ "회 (임계값 미만)") none, st2)

/-- `MultiIpTokenUseRule.analyze`: record one sub-key per IP under the JTI
prefix (600 s TTL), count the distinct IPs via `keys(prefix*)`; 45 points
from 3 distinct IPs. -/
def multiIpTokenUseAnalyze (now : Nat) (ev : RiskEvent) (st : StoreState) :
    RuleResult × StoreState :=
  match getJti ev.payload with
  | none => (createResult "MultiIpTokenUse" 0 "JTI가 없어 추적 불가" none, st)
  | some jti =>
    let keyPre := "waf:multi_ip:" ++ jti
    let ipKey := keyPre ++ ":" ++ ev.ip
    let st1 := setOp now ipKey "1" (some 600) st
    let uniqueIpCount : Int := (keysOp now (keyPre ++ ":*") st1).length
    if uniqueIpCount ≥ 3 then
      (createResult "MultiIpTokenUse" 45
        ("600초 내 " ++ toString uniqueIpCount ++ "개 다른 IP에서 같은 토큰 사용 (임계값: 3)")
        (some [("jti", jti), ("currentIp", ev.ip)]), st1)
    else
      (createResult "MultiIpTokenUse" 0
        (toString uniqueIpCount ++ "개 IP에서 토큰 사용 (임계값 미만)") none, st1)

/-- The safe-algorithm allowlist of `AlgorithmConfusionRule`. -/
def SAFE_ALGORITHMS : List String :=
  ["HS256", "HS384", "HS512", "RS256", "RS384", "RS512",
   "ES256", "ES384", "ES512"]

/-- `AlgorithmConfusionRule.extractAlgorithm`: `null` when the token has at
most one segment, the header fails to parse (the catch branch), or
`header.alg` is falsy (`header.alg || null`). -/
def extractAlgorithm (prims : JsPrims) (token : String) : Option JsVal :=
  match jsSplitDot token with
  | h :: _ :: _ =>
    match prims.jsonParseHeader (prims.base64UrlToString h) with
    | none => none
    | some hdr =>
      match jsGetField hdr "alg" with
      | some v => if jsTruthy v then some v else none
      | none => none
  | _ => none

/-- `AlgorithmConfusionRule.isSuspiciousAlgorithm`: missing or falsy
algorithm, `none` (case-insensitive) or anything outside the allowlist is
suspicious; a truthy non-string `alg` would make `alg.toUpperCase()` throw,
modelled as `Except.error`. -/
def isSuspiciousAlgorithm : Option JsVal → Except String Bool
  | none => .ok true
  | some v =>
    if jsTruthy v = false then .ok true
    else
      match v with
      | .str s =>
        let algUpper := jsToUpper s
        if algUpper = "NONE" then .ok true
        else if SAFE_ALGORITHMS.contains algUpper = false then .ok true
        else .ok false
      | _ => .error "TypeError: alg.toUpperCase is not a function"

/-- `AlgorithmConfusionRule.analyze`: per-IP counter via `incrementCounter`
with a 300 s TTL argument (so the TTL is re-set on every call), threshold 3,
literal score `weight * 5 = 40`. -/
def algorithmConfusionAnalyze (prims : JsPrims) (now : Nat) (ev : RiskEvent)
    (st : StoreState) : Except String (RuleResult × StoreState) :=
  match isSuspiciousAlgorithm (extractAlgorithm prims ev.token) with
  | .error e => .error e
  | .ok false => .ok (passResult "AlgorithmConfusionRule", st)
  | .ok true =>
    let key := "rule:alg-confusion:" ++ ev.ip
    let c := (incrementCounterOp now key 1 (some 300) st).1
    let st1 := (incrementCounterOp now key 1 (some 300) st).2
    if jsGe c 3 then
      .ok (⟨"AlgorithmConfusionRule", 8 * 5, "비정상 알고리즘 3회 이상 시도",
        some [("count", jsNumToString c), ("ip", ev.ip)]⟩, st1)
    else .ok (passResult "AlgorithmConfusionRule", st1)

/-- `HeaderForgeryRule.extractHeader`. -/
def extractHeader (prims : JsPrims) (token : String) : Option JwtHeader :=
  match jsSplitDot token with
  | h :: _ :: _ => prims.jsonParseHeader (prims.base64UrlToString h)
  | _ => none

/-- Truthiness of an optional header field. -/
def truthyField : Option JsVal → Bool
  | some v => jsTruthy v
  | none => false

/-- The suspicious header fields checked by `HeaderForgeryRule`. -/
def suspiciousFields : List String :=
  ["password", "secret", "admin", "role", "permissions"]

/-- `HeaderForgeryRule.isForgedHeader`: unparsable header; truthy `typ`
other than `"JWT"`; missing (falsy) `alg`; a truthy suspicious field; or
more than 5 header fields. -/
def isForgedHeader : Option JwtHeader → Bool × Option String
  | none => (true, some "헤더 파싱 실패")
  | some h =>
    match jsGetField h "typ" with
    | some t =>
      if jsTruthy t && !(t == JsVal.str "JWT") then
        (true, some "잘못된 typ")
      else forgedAfterTyp h
    | none => forgedAfterTyp h
where
  forgedAfterTyp (h : JwtHeader) : Bool × Option String :=
    if truthyField (jsGetField h "alg") = false then (true, some "alg 필드 누락")
    else
      match suspiciousFields.find? (fun f => truthyField (jsGetField h f)) with
      | some f => (true, some ("헤더에 비정상 필드: " ++ f))
      | none =>
        if h.length > 5 then (true, some "과도한 헤더 필드 수")
        else (false, none)

/-- `HeaderForgeryRule.analyze`: per-IP counter via `incrementCounter` with a
300 s TTL argument (TTL re-set on every call), threshold 2, literal score
`weight * 5 = 35`. -/
def headerForgeryAnalyze (prims : JsPrims) (now : Nat) (ev : RiskEvent)
    (st : StoreState) : RuleResult × StoreState :=
  let check := isForgedHeader (extractHeader prims ev.token)
  if check.1 = false then (passResult "HeaderForgeryRule", st)
  else
    let key := "rule:header-forgery:" ++ ev.ip
    let c := (incrementCounterOp now key 1 (some 300) st).1
    let st1 := (incrementCounterOp now key 1 (some 300) st).2
    if jsGe c 2 then
      (⟨"HeaderForgeryRule", 7 * 5, "헤더 위조 2회 이상 탐지",
        some [("count", jsNumToString c), ("ip", ev.ip)]⟩, st1)
    else (passResult "HeaderForgeryRule", st1)

/-- `BlacklistTokenRule.analyze`: no window — an immediate literal score
`weight * 5 = 50` when the `blacklist:<jti>` key holds a truthy value; the
per-IP attempt counter (600 s TTL) only feeds `details`. -/
def blacklistTokenAnalyze (now : Nat) (ev : RiskEvent) (st : StoreState) :
    RuleResult × StoreState :=
  match getJti ev.payload with
  | none => (passResult "BlacklistTokenRule", st)
  | some jti =>
    let blacklistKey := "blacklist:" ++ jti
    let got := getOp now blacklistKey st
    let st1 := got.2
    match got.1 with
    | some b =>
      if b ≠ "" then
        let attemptKey := "blacklist:attempt:" ++ ev.ip
        let c := (incrementCounterOp now attemptKey 1 (some 600) st1).1
        let st2 := (incrementCounterOp now attemptKey 1 (some 600) st1).2
        (⟨"BlacklistTokenRule", 10 * 5, "블랙리스트에 등록된 토큰 사용 시도",
          some [("jti", jti), ("ip", ev.ip), ("attemptCount", jsNumToString c)]⟩,
          st2)
      else (passResult "BlacklistTokenRule", st1)
    | none => (passResult "BlacklistTokenRule", st1)

theorem createResult_bounds (n reason : String) (s : Int)
    (d : Option (List (String × String))) :
    0 ≤ (createResult n s reason d).score ∧
    (createResult n s reason d).score ≤ 100 := by
  unfold createResult
  exact ⟨le_min (by norm_num) (le_max_left 0 s), min_le_left _ _⟩

/-- C8. Every invocation of any of the nine rule variants, on any event and
any store state, returns a `RuleResult` whose score lies in `[0, 100]` (for
`AlgorithmConfusion`, on every non-throwing run). -/
theorem rule_scores_in_range (prims : JsPrims) (now : Nat) (ev : RiskEvent)
    (st : StoreState) :
    (0 ≤ (expiredTokenFloodAnalyze now ev st).1.score ∧
      (expiredTokenFloodAnalyze now ev st).1.score ≤ 100) ∧
    (0 ≤ (invalidSignatureSpikeAnalyze now ev st).1.score ∧
      (invalidSignatureSpikeAnalyze now ev st).1.score ≤ 100) ∧
    (0 ≤ (refreshEndpointAbuseAnalyze now ev st).1.score ∧
      (refreshEndpointAbuseAnalyze now ev st).1.score ≤ 100) ∧
    (0 ≤ (privilegeEndpointWeightingAnalyze ev st).1.score ∧
      (privilegeEndpointWeightingAnalyze ev st).1.score ≤ 100) ∧
    (0 ≤ (tokenReplayDetectionAnalyze now ev st).1.score ∧
      (tokenReplayDetectionAnalyze now ev st).1.score ≤ 100) ∧
    (0 ≤ (multiIpTokenUseAnalyze now ev st).1.score ∧
      (multiIpTokenUseAnalyze now ev st).1.score ≤ 100) ∧
    (0 ≤ (headerForgeryAnalyze prims now ev st).1.score ∧
      (headerForgeryAnalyze prims now ev st).1.score ≤ 100) ∧
    (0 ≤ (blacklistTokenAnalyze now ev st).1.score ∧
      (blacklistTokenAnalyze now ev st).1.score ≤ 100) ∧
    (∀ res st1, algorithmConfusionAnalyze prims now ev st = .ok (res, st1) →
      0 ≤ res.score ∧ res.score ≤ 100) := by
  refine ⟨?_, ?_, ?_, ?_, ?_, ?_, ?_, ?_, ?_⟩
  · unfold expiredTokenFloodAnalyze
    try dsimp only
    repeat' split
    all_goals first
      | exact createResult_bounds _ _ _ _
      | exact ⟨by norm_num [passResult], by norm_num [passResult]⟩
      | exact ⟨by norm_num, by norm_num⟩
  · unfold invalidSignatureSpikeAnalyze
    try dsimp only
    repeat' split
    all_goals first
      | exact createResult_bounds _ _ _ _
      | exact ⟨by norm_num [passResult], by norm_num [passResult]⟩
      | exact ⟨by norm_num, by norm_num⟩
  · unfold refreshEndpointAbuseAnalyze
    try dsimp only
    repeat' split
    all_goals first
      | exact createResult_bounds _ _ _ _
      | exact ⟨by norm_num [passResult], by norm_num [passResult]⟩
      | exact ⟨by norm_num, by norm_num⟩
  · unfold privilegeEndpointWeightingAnalyze
    try dsimp only
    repeat' split
    all_goals first
      | exact createResult_bounds _ _ _ _
      | exact ⟨by norm_num [passResult], by norm_num [passResult]⟩
      | exact ⟨by norm_num, by norm_num⟩
  · unfold tokenReplayDetectionAnalyze
    try dsimp only
    repeat' split
    all_goals first
      | exact createResult_bounds _ _ _ _
      | exact ⟨by norm_num [passResult], by norm_num [passResult]⟩
      | exact ⟨by norm_num, by norm_num⟩
  · unfold multiIpTokenUseAnalyze
    try dsimp only
    repeat' split
    all_goals first
      | exact createResult_bounds _ _ _ _
      | exact ⟨by norm_num [passResult], by norm_num [passResult]⟩
      | exact ⟨by norm_num, by norm_num⟩
  · unfold headerForgeryAnalyze
    try dsimp only
    repeat' split
    all_goals first
      | exact createResult_bounds _ _ _ _
      | exact ⟨by norm_num [passResult], by norm_num [passResult]⟩
      | exact ⟨by norm_num, by norm_num⟩
  · unfold blacklistTokenAnalyze
    try dsimp only
    repeat' split
    all_goals first
      | exact createResult_bounds _ _ _ _
      | exact ⟨by norm_num [passResult], by norm_num [passResult]⟩
      | exact ⟨by norm_num, by norm_num⟩
  · intro res st1 h
    unfold algorithmConfusionAnalyze at h
    dsimp only at h
    split at h
    · simp at h
    · injection h with h2
      have hs := congrArg (fun p => p.1.score) h2
      simp [passResult] at hs
      constructor <;> omega
    · split at h
      · injection h with h2
        have hs := congrArg (fun p => p.1.score) h2
        simp at hs
        constructor <;> omega
      · injection h with h2
        have hs := congrArg (fun p => p.1.score) h2
        simp [passResult] at hs
        constructor <;> omega

/-- C4 (amended). Every counting rule increments its store counter first and
triggers its score exactly when the post-increment count is at least its
threshold (inclusive boundary). The four rules built on a manual
`count === 1` check (ExpiredTokenFlood, InvalidSignatureSpike,
RefreshEndpointAbuse, TokenReplayDetection) set the window TTL only when the
post-increment count equals 1; AlgorithmConfusion and HeaderForgery instead
go through `BaseRule.incrementCounter` with a TTL argument and therefore
re-set the window TTL on every call, not only on the first. -/
theorem counting_rules_threshold_spec (prims : JsPrims) (now : Nat)
    (ev : RiskEvent) (st : StoreState) :
    (ev.isValid = false → jsIncludesOpt ev.invalidReason "만료" = true →
      (expiredTokenFloodAnalyze now ev st).2 =
        (if (incrementOp now ("waf:expired:" ++ ev.ip) 1 st).1 = some 1 then
          expireOp now ("waf:expired:" ++ ev.ip) 60
            (incrementOp now ("waf:expired:" ++ ev.ip) 1 st).2
        else (incrementOp now ("waf:expired:" ++ ev.ip) 1 st).2) ∧
      (expiredTokenFloodAnalyze now ev st).1.score =
        (if jsGe (incrementOp now ("waf:expired:" ++ ev.ip) 1 st).1 5 then 30
         else 0)) ∧
    (ev.isValid = false → jsIncludesOpt ev.invalidReason "서명" = true →
      (invalidSignatureSpikeAnalyze now ev st).2 =
        (if (incrementOp now ("waf:invalid_sig:" ++ ev.ip) 1 st).1 = some 1 then
          expireOp now ("waf:invalid_sig:" ++ ev.ip) 300
            (incrementOp now ("waf:invalid_sig:" ++ ev.ip) 1 st).2
        else (incrementOp now ("waf:invalid_sig:" ++ ev.ip) 1 st).2) ∧
      (invalidSignatureSpikeAnalyze now ev st).1.score =
        (if jsGe (incrementOp now ("waf:invalid_sig:" ++ ev.ip) 1 st).1 10
         then 40 else 0)) ∧
    (∀ idf, isRefreshEndpoint ev.path = true →
      (extractUserId ev.payload).getD ev.ip = idf →
      (refreshEndpointAbuseAnalyze now ev st).2 =
        (if (incrementOp now ("waf:refresh:" ++ idf) 1 st).1 = some 1 then
          expireOp now ("waf:refresh:" ++ idf) 600
            (incrementOp now ("waf:refresh:" ++ idf) 1 st).2
        else (incrementOp now ("waf:refresh:" ++ idf) 1 st).2) ∧
      (refreshEndpointAbuseAnalyze now ev st).1.score =
        (if jsGe (incrementOp now ("waf:refresh:" ++ idf) 1 st).1 20 then 35
         else 0)) ∧
    (∀ jti, getJti ev.payload = some jti →
      (tokenReplayDetectionAnalyze now ev st).2 =
        (if (incrementOp now ("waf:replay:" ++ jti) 1 st).1 = some 1 then
          expireOp now ("waf:replay:" ++ jti) 60
            (incrementOp now ("waf:replay:" ++ jti) 1 st).2
        else (incrementOp now ("waf:replay:" ++ jti) 1 st).2) ∧
      (tokenReplayDetectionAnalyze now ev st).1.score =
        (if jsGe (incrementOp now ("waf:replay:" ++ jti) 1 st).1 30 then 25
         else 0)) ∧
    (isSuspiciousAlgorithm (extractAlgorithm prims ev.token) = .ok true →
      ∃ r, algorithmConfusionAnalyze prims now ev st =
        .ok (r, expireOp now ("rule:alg-confusion:" ++ ev.ip) 300
          (incrementOp now ("rule:alg-confusion:" ++ ev.ip) 1 st).2) ∧
      r.score =
        (if jsGe (incrementOp now ("rule:alg-confusion:" ++ ev.ip) 1 st).1 3
         then 40 else 0)) ∧
    ((isForgedHeader (extractHeader prims ev.token)).1 = true →
      (headerForgeryAnalyze prims now ev st).2 =
        expireOp now ("rule:header-forgery:" ++ ev.ip) 300
          (incrementOp now ("rule:header-forgery:" ++ ev.ip) 1 st).2 ∧
      (headerForgeryAnalyze prims now ev st).1.score =
        (if jsGe (incrementOp now ("rule:header-forgery:" ++ ev.ip) 1 st).1 2
         then 35 else 0)) := by
  refine ⟨?_, ?_, ?_, ?_, ?_, ?_⟩
  · intro h1 h2
    unfold expiredTokenFloodAnalyze
    simp only [h1, h2, Bool.false_eq_true, if_false, Bool.true_eq_false]
    by_cases hg :
        jsGe (incrementOp now ("waf:expired:" ++ ev.ip) 1 st).1 5 = true <;>
      simp [hg, createResult] <;> decide
  · intro h1 h2
    unfold invalidSignatureSpikeAnalyze
    simp only [h1, h2, Bool.false_eq_true, if_false, Bool.true_eq_false]
    by_cases hg :
        jsGe (incrementOp now ("waf:invalid_sig:" ++ ev.ip) 1 st).1 10 = true <;>
      simp [hg, createResult] <;> decide
  · intro idf h1 h2
    unfold refreshEndpointAbuseAnalyze
    have hid : (match extractUserId ev.payload with
        | some u => u
        | none => ev.ip) = idf := by
      rw [← h2]
      cases extractUserId ev.payload <;> rfl
    simp only [h1, Bool.true_eq_false, if_false, hid]
    by_cases hg :
        jsGe (incrementOp now ("waf:refresh:" ++ idf) 1 st).1 20 = true <;>
      simp [hg, createResult] <;> decide
  · intro jti hj
    unfold tokenReplayDetectionAnalyze
    simp only [hj]
    by_cases hg :
        jsGe (incrementOp now ("waf:replay:" ++ jti) 1 st).1 30 = true <;>
      simp [hg, createResult] <;> decide
  · intro hs
    unfold algorithmConfusionAnalyze
    rw [hs]
    by_cases hg :
        jsGe (incrementOp now ("rule:alg-confusion:" ++ ev.ip) 1 st).1 3 = true
    · refine ⟨⟨"AlgorithmConfusionRule", 8 * 5, "비정상 알고리즘 3회 이상 시도",
        some [("count", jsNumToString
          (incrementOp now ("rule:alg-confusion:" ++ ev.ip) 1 st).1),
          ("ip", ev.ip)]⟩, ?_, ?_⟩ <;>
        simp [incrementCounterOp, hg] <;> decide
    · refine ⟨passResult "AlgorithmConfusionRule", ?_, ?_⟩ <;>
        simp [incrementCounterOp, hg, passResult] <;> decide
  · intro hf
    unfold headerForgeryAnalyze
    simp only [hf, Bool.true_eq_false, if_false]
    by_cases hg :
        jsGe (incrementOp now ("rule:header-forgery:" ++ ev.ip) 1 st).1 2 = true <;>
      simp [incrementCounterOp, hg, passResult] <;> decide

/-- Platform instance for the C4 counterexample and witness: every header
fails to parse, so `AlgorithmConfusionRule` always takes its counting path. -/
def c4Prims : JsPrims := ⟨id, id, fun _ => none, fun _ => none, fun _ _ => ""⟩

/-- Event for the C4 counterexample. -/
def c4Event : RiskEvent := ⟨"x.y.z", none, true, none, "1.1.1.1", "/", "GET", none, 0⟩

/-- Store state after the first `AlgorithmConfusionRule` call (instant 0). -/
def c4State1 : StoreState :=
  match algorithmConfusionAnalyze c4Prims 0 c4Event [] with
  | .ok (_, s) => s
  | .error _ => []

/-- Store state after the second `AlgorithmConfusionRule` call (instant
100000) on `c4State1`. -/
def c4State2 : StoreState :=
  match algorithmConfusionAnalyze c4Prims 100000 c4Event c4State1 with
  | .ok (_, s) => s
  | .error _ => []

/-- Counterexample to C4 as stated: on the second `AlgorithmConfusionRule`
call the post-increment count is 2 (not 1), yet the key's window expiry moves
from 300000 to 400000 — the rule re-sets the TTL on every call instead of
only when the count equals 1. -/
theorem counting_rules_ttl_counterexample :
    lookupSV "rule:alg-confusion:1.1.1.1" c4State1 =
      some ⟨"1", some 300000⟩ ∧
    (incrementOp 100000 "rule:alg-confusion:1.1.1.1" 1 c4State1).1 = some 2 ∧
    lookupSV "rule:alg-confusion:1.1.1.1" c4State2 =
      some ⟨"2", some 400000⟩ := by
  exact ⟨by decide, by decide, by decide⟩

/-- Event for the C4 witness: an invalid event whose reason mentions
expiry. -/
def c4wEvent : RiskEvent :=
  ⟨"t", none, false, some "토큰이 만료되었습니다.", "9.9.9.9", "/", "GET", none, 0⟩

/-- Witness for C4 (amended): a first `ExpiredTokenFlood` call increments the
counter to 1, sets the 60 s window TTL, and scores 0 (below the threshold
of 5). -/
theorem counting_rules_threshold_spec_witness :
    (expiredTokenFloodAnalyze 0 c4wEvent []).2 =
      [("waf:expired:9.9.9.9", ⟨"1", some 60000⟩)] ∧
    (expiredTokenFloodAnalyze 0 c4wEvent []).1.score = 0 := by
  have h := (counting_rules_threshold_spec c4Prims 0 c4wEvent []).1
    (by decide) (by decide)
  exact ⟨h.1.trans (by decide), h.2.trans (by decide)⟩

/-- Platform instance for the C8 witness. -/
def c8Prims : JsPrims := ⟨id, id, fun _ => none, fun _ => none, fun _ _ => ""⟩

/-- Event for the C8 witness. -/
def c8Event : RiskEvent := ⟨"a.b.c", none, true, none, "2.2.2.2", "/", "GET", none, 0⟩

/-- Witness for C8: a concrete non-throwing `AlgorithmConfusionRule` run
(whose result is the zero-score pass) has its score certified in `[0, 100]`
by the bounds theorem. -/
theorem rule_scores_in_range_witness :
    0 ≤ (passResult "AlgorithmConfusionRule").score ∧
    (passResult "AlgorithmConfusionRule").score ≤ 100 :=
  (rule_scores_in_range c8Prims 0 c8Event []).2.2.2.2.2.2.2.2
    (passResult "AlgorithmConfusionRule")
    [("rule:alg-confusion:2.2.2.2", ⟨"1", some 300000⟩)] (by rfl)
